import Mathlib

/-!
Verification of the DeepSpeech CTC-decoder scoring core
(`native_client/ctcdecode/scorer.cpp`) and the TensorFlow model-state
helper (`native_client/tfmodelstate.cc`) against their natural-language
specification.

The external KenLM n-gram engine is modelled as an abstract record of
query functions over an abstract state type, exactly the interface that
`scorer.cpp` consumes (`BeginSentenceWrite`, `NullContextWrite`,
`vocabulary.Index`, `BaseScore`, `EndSentence`, `kUNK`).  Scores are
modelled as rationals; the log-base conversion constant `NUM_FLT_LOGE`
and the out-of-vocabulary penalty `OOV_SCORE` are parameters, since they
are external constants defined outside the translated sources.
-/

set_option maxRecDepth 4096

/-- Abstract interface of the external n-gram language-model engine as used
by `Scorer` (KenLM's `base::Model` virtual interface). `σ` is the opaque
`lm::ngram::State`. `baseScore st w` returns the conditional log score of
word id `w` in context state `st` together with the successor state that
KenLM writes into `out_state`. -/
structure NGramLM (σ : Type) where
  max_order : Nat
  beginState : σ
  nullState : σ
  index : String → Nat
  unk : Nat
  endSentenceId : Nat
  baseScore : σ → Nat → ℚ × σ

/-- The word loop of `Scorer::get_log_cond_prob` (scorer.cpp lines 220-230):
for each word, look its index up in the vocabulary, short-circuit with
`none` when the index is the unknown id (`word_index == lm::kUNK`),
otherwise overwrite `cond_prob` with the `BaseScore` of that word and swap
the in/out states. Returns the final `cond_prob` and `in_state` when no
out-of-vocabulary word was hit. -/
def score_loop {σ : Type} (lm : NGramLM σ) : List String → σ → ℚ → Option (ℚ × σ)
  | [], st, cond_prob => some (cond_prob, st)
  | w :: ws, st, _ =>
    let word_index := lm.index w
    if word_index = lm.unk then
      none
    else
      let r := lm.baseScore st word_index
      score_loop lm ws r.2 r.1

/-- `Scorer::get_log_cond_prob` (scorer.cpp lines 203-238): initialize the
state with begin-of-sentence or null context, run the word loop, take one
extra `BaseScore` step against `EndSentence()` when `eos`, and divide the
final score by `NUM_FLT_LOGE`.  An out-of-vocabulary word returns
`OOV_SCORE` directly (without the division). -/
def get_log_cond_prob {σ : Type} (lm : NGramLM σ) (oovScore numFltLoge : ℚ)
    (words : List String) (bos eos : Bool) : ℚ :=
  let in_state := if bos then lm.beginState else lm.nullState
  match score_loop lm words in_state 0 with
  | none => oovScore
  | some (cond_prob, st) =>
    let cond_prob := if eos then (lm.baseScore st lm.endSentenceId).1 else cond_prob
    cond_prob / numFltLoge

/-- The window loop of `Scorer::get_sent_log_prob` (scorer.cpp lines
265-282), written with an explicit iteration budget.  The loop runs
`win_end = 1, 2, ...` while `win_end <= sent_len + 1`; each iteration
scores the window `[win_start, win_end)` of `words` (stopping one early
when `eos`) and advances `win_start` only once the window has grown to
`max_order`.  A budget of `words.length + 1` covers every iteration the
C++ loop performs. -/
def sent_loop {σ : Type} (lm : NGramLM σ) (oovScore numFltLoge : ℚ)
    (words : List String) : Nat → Nat → Nat → ℚ
  | 0, _, _ => 0
  | fuel + 1, win_start, win_end =>
    if win_end ≤ words.length + 1 then
      let win_size := win_end - win_start
      let bos : Bool := decide (win_size < lm.max_order)
      let eos : Bool := decide (win_end = words.length + 1)
      let hi := if eos then win_end - 1 else win_end
      let window := (words.drop win_start).take (hi - win_start)
      let sc := get_log_cond_prob lm oovScore numFltLoge window bos eos
      let win_start' := if win_size = lm.max_order then win_start + 1 else win_start
      sc + sent_loop lm oovScore numFltLoge words fuel win_start' (win_end + 1)
    else 0

/-- `Scorer::get_sent_log_prob` (scorer.cpp lines 240-285): sum of the
window scores, divided once more by `NUM_FLT_LOGE`. -/
def get_sent_log_prob {σ : Type} (lm : NGramLM σ) (oovScore numFltLoge : ℚ)
    (words : List String) : ℚ :=
  sent_loop lm oovScore numFltLoge words (words.length + 1) 0 1 / numFltLoge

/-- A concrete toy bigram engine over the vocabulary {"cat", "dog"} with
`max_order = 2`, used to evaluate the scoring functions on the spec's
end-to-end scenario.  States record the ids fed so far; the score table
gives distinct values to each step so that "sum of the per-word scores"
and "last score only" are distinguishable. -/
def toyScore : List Nat → Nat → ℚ
  | [1], 2 => -1
  | [1, 2], 3 => -2
  | [1, 2, 3], 4 => -4
  | _, _ => -8

/-- The toy engine itself: "cat" ↦ 2, "dog" ↦ 3, unknown id 0,
end-of-sentence id 4, begin state `[1]`. -/
def toyLM : NGramLM (List Nat) where
  max_order := 2
  beginState := [1]
  nullState := []
  index := fun w => if w = "cat" then 2 else if w = "dog" then 3 else 0
  unk := 0
  endSentenceId := 4
  baseScore := fun st w => (toyScore st w, st ++ [w])

/-- The value the spec's end-to-end scenario claims for
`get_log_cond_prob(["cat","dog"], bos=true, eos=true)` on the toy engine:
the sum of the two successive `base_score` calls threaded through the
begin-of-sentence state plus the end-of-sentence score step. -/
def toyClaimedSum : ℚ :=
  let r1 := toyLM.baseScore toyLM.beginState (toyLM.index "cat")
  let r2 := toyLM.baseScore r1.2 (toyLM.index "dog")
  let r3 := toyLM.baseScore r2.2 toyLM.endSentenceId
  r1.1 + r2.1 + r3.1

/-- The leading-byte classification of `Scorer::is_scoring_boundary`
(scorer.cpp lines 177-189): how many bytes the current codepoint needs,
determined by the high bits of its leading byte.  `none` corresponds to the
`assert(false)` branch for an invalid leading byte. -/
def utf8_needed_bytes (first_byte : Nat) : Option Nat :=
  if first_byte >>> 3 = 0x1E then some 4
  else if first_byte >>> 4 = 0x0E then some 3
  else if first_byte >>> 5 = 0x06 then some 2
  else if first_byte >>> 7 = 0x00 then some 1
  else none

/-- `Scorer::is_scoring_boundary` (scorer.cpp lines 169-194).  The node
observables consumed by the function — `prefix->character` and the
`(distance, first_byte)` pair produced by
`PathTrie::distance_to_codepoint_boundary` — are taken as arguments.
The result is `Option Bool`: `none` models the `assert(false)` on an
invalid leading byte, which (with assertions active, as in the source as
written) aborts execution before the unreachable `return false` that
follows it. -/
def is_scoring_boundary (utf8_mode : Bool) (space_id : Nat) (character : Int)
    (first_byte : Nat) (distance_to_boundary : Int) (new_label : Nat) : Option Bool :=
  if utf8_mode then
    if character = -1 then
      some false
    else
      match utf8_needed_bytes first_byte with
      | some needed_bytes => some (decide (distance_to_boundary = (needed_bytes : Int)))
      | none => none
  else
    some (decide (new_label = space_id))

/-- The beam-search prefix tree seen from one leaf: each node holds its
label (`character`, with `-1` as the root sentinel) and a back-reference to
its parent; `null` models a null `PathTrie*`. -/
inductive PathTrie where
  | null : PathTrie
  | node (character : Int) (parent : PathTrie) : PathTrie
deriving DecidableEq

/-- `node->parent` (a null pointer's parent is never dereferenced by the
translated code; reading it as `null` keeps the model total). -/
def PathTrie.parentOf : PathTrie → PathTrie
  | .null => .null
  | .node _ p => p

/-- Labels along the backward chain from a node to (and including) the
root sentinel. -/
def PathTrie.pathLabels : PathTrie → List Int
  | .null => []
  | .node c p => c :: PathTrie.pathLabels p

/-- A node at which the `make_ngram` loop stops: a null pointer or the
root sentinel. -/
def PathTrie.isTerminal : PathTrie → Bool
  | .null => true
  | .node c _ => decide (c = -1)

/-- Modelled from the spec: `byte_is_codepoint_boundary` (decoder_utils,
not among the provided sources) — in byte-oriented UTF-8 mode each label
is a byte value, and a byte starts a codepoint exactly when it is not a
continuation byte (high bits `10`). -/
def byte_is_codepoint_boundary (character : Int) : Bool :=
  decide (¬ character.toNat >>> 6 = 2)

/-- Modelled from the spec: `PathTrie::get_prev_grapheme` (path_trie.cpp
is not among the provided sources).  Walks backward from the current node
collecting the bytes of the trailing codepoint, stopping at the root
sentinel or at the codepoint's leading byte; returns the collected labels
oldest-first together with the stop node (the leading-byte node, whose
parent is the node just before the walked-back unit). -/
def get_prev_grapheme : PathTrie → List Int × PathTrie
  | .null => ([], .null)
  | .node c p =>
    if c = -1 then ([], .node c p)
    else if byte_is_codepoint_boundary c then ([c], .node c p)
    else
      let r := get_prev_grapheme p
      (r.1 ++ [c], r.2)

/-- Modelled from the spec: `PathTrie::get_prev_word` (path_trie.cpp is
not among the provided sources).  Walks backward collecting labels until
the space label or the root sentinel is reached; the stop node (space or
root) is returned, its parent being the node just before the walked-back
word. -/
def get_prev_word (space_id : Int) : PathTrie → List Int × PathTrie
  | .null => ([], .null)
  | .node c p =>
    if c = space_id ∨ c = -1 then ([], .node c p)
    else
      let r := get_prev_word space_id p
      (r.1 ++ [c], r.2)

/-- The loop of `Scorer::make_ngram` (scorer.cpp lines 313-332), returning
both the collected per-unit label vectors — oldest→newest, i.e. after the
final `std::reverse` — and the node at which the loop stopped. -/
def make_ngram_walk (utf8_mode : Bool) (space_id : Int) :
    Nat → PathTrie → List (List Int) × PathTrie
  | 0, t => ([], t)
  | order + 1, t =>
    match t with
    | .null => ([], .null)
    | .node c p =>
      if c = -1 then ([], .node c p)
      else
        let r := if utf8_mode then get_prev_grapheme (.node c p)
                 else get_prev_word space_id (.node c p)
        let rest := make_ngram_walk utf8_mode space_id order r.2.parentOf
        (rest.1 ++ [r.1], rest.2)

/-- The label vectors collected by `Scorer::make_ngram`. -/
def make_ngram_vecs (utf8_mode : Bool) (space_id : Int) (max_order : Nat)
    (t : PathTrie) : List (List Int) :=
  (make_ngram_walk utf8_mode space_id max_order t).1

/-- `Scorer::make_ngram` (scorer.cpp lines 307-334): each unit's label
vector is turned into a string by `alphabet_.LabelsToString`, modelled by
the abstract reconstruction function `A`. -/
def make_ngram (A : List Int → String) (utf8_mode : Bool) (space_id : Int)
    (max_order : Nat) (t : PathTrie) : List String :=
  (make_ngram_vecs utf8_mode space_id max_order t).map A

/-- One run of successive flat writes `ret_mapped(i) = v`, as performed by
the copy loops of `tensor_from_vector` (tfmodelstate.cc lines 140-153). -/
def write_run (l : List ℚ) (i : Nat) (vals : List ℚ) : List ℚ :=
  match vals with
  | [] => l
  | v :: vs => write_run (l.set i v) (i + 1) vs

/-- `tensor_from_vector` (tfmodelstate.cc lines 140-153): copy `vec` into
the first positions of the freshly allocated tensor, then fill every
remaining position up to `shape.num_elements()` with `0.f`.  The fresh
tensor's unspecified initial contents are the parameter `ret0`, whose
length is `shape.num_elements()`; float values are modelled as rationals
(the function only moves them). -/
def tensor_from_vector (vec : List ℚ) (ret0 : List ℚ) : List ℚ :=
  let copied := write_run ret0 0 vec
  write_run copied vec.length (List.replicate (ret0.length - vec.length) 0)

/-- Little-endian byte encoding of `v` on `n` bytes, as produced by
`fout.write(reinterpret_cast<const char*>(&x), n)` on a little-endian
host. -/
def le_bytes : Nat → Nat → List Nat
  | 0, _ => []
  | n + 1, v => v % 256 :: le_bytes n (v / 256)

/-- Little-endian decoding of a byte list, as performed by `fin.read` into
an `n`-byte object. -/
def le_decode : List Nat → Nat
  | [] => 0
  | b :: bs => b + 256 * le_decode bs

/-- The signed 32-bit integer represented by a bit pattern (two's
complement). -/
def int32_of_bits (v : Nat) : Int :=
  if v % 2 ^ 32 < 2 ^ 31 then ((v % 2 ^ 32 : Nat) : Int)
  else ((v % 2 ^ 32 : Nat) : Int) - 2 ^ 32

/-- The 32-bit two's-complement pattern of a signed integer. -/
def bits_of_int32 (v : Int) : Nat := (v % 2 ^ 32).toNat

/-- Round-to-nearest-even of `n / 2 ^ k`. -/
def rne_shift (n k : Nat) : Nat :=
  if k = 0 then n
  else
    let q := n >>> k
    let r := n % 2 ^ k
    let half := 2 ^ (k - 1)
    if half < r ∨ (r = half ∧ q % 2 = 1) then q + 1 else q

/-- IEEE-754 narrowing of a binary64 bit pattern to a binary32 bit
pattern (round to nearest, ties to even): the conversion C performs when
the `double` values read by `load_trie` are passed to
`Scorer::reset_params(float, float)`. -/
def f64_to_f32 (p : Nat) : Nat :=
  let s := p >>> 63 % 2
  let e := p >>> 52 % 2048
  let m := p % 2 ^ 52
  if e = 2047 then
    if m = 0 then s <<< 31 + 255 <<< 23
    else s <<< 31 + 255 <<< 23 + (m >>> 29 ||| 1 <<< 22)
  else if e = 0 then
    s <<< 31
  else
    let expo : Int := (e : Int) - 1023
    let sig := 2 ^ 52 + m
    if 127 < expo then s <<< 31 + 255 <<< 23
    else if expo < -126 then
      s <<< 31 + rne_shift sig (-97 - expo).toNat
    else
      let sig24 := rne_shift sig 29
      if sig24 = 2 ^ 24 then
        if expo + 1 > 127 then s <<< 31 + 255 <<< 23
        else s <<< 31 + (expo + 1 + 127).toNat <<< 23
      else s <<< 31 + (expo + 127).toNat <<< 23 + (sig24 - 2 ^ 23)

/-- IEEE-754 widening of a binary32 bit pattern to a binary64 bit pattern
(exact): the conversion C performs when `reset_params`'s `float`
parameters are assigned to the Scorer's 8-byte hyperparameter members
(spec §3/§6: the stored hyperparameters are 8-byte floats). -/
def f32_to_f64 (q : Nat) : Nat :=
  let s := q >>> 31 % 2
  let e := q >>> 23 % 256
  let m := q % 2 ^ 23
  if e = 255 then s <<< 63 + 2047 <<< 52 + m <<< 29
  else if e = 0 then
    if m = 0 then s <<< 63
    else
      let p := Nat.log2 m
      s <<< 63 + (p + 874) <<< 52 + (m - 2 ^ p) <<< (52 - p)
  else s <<< 63 + (e + 896) <<< 52 + m <<< 29

/-- The `MAGIC` constant `'TRIE'` (scorer.cpp line 27): the
multi-character literal packs the bytes `T R I E` into an `int32_t`. -/
def MAGIC : Int := 0x54524945

/-- `FILE_VERSION` (scorer.cpp line 28). -/
def FILE_VERSION : Int := 6

/-- The Scorer fields involved in the artifact codec.  `alpha` and `beta`
hold the bit patterns of the 8-byte floating members (spec §3); the
`dictionary` field stands for the externally encoded FST bytes, which both
codec directions pass through unchanged. -/
structure ScorerState where
  alpha : Nat
  beta : Nat
  is_utf8_mode : Bool
  dictionary : List Nat
deriving DecidableEq

/-- `Scorer::reset_params(float alpha, float beta)` (scorer.cpp lines
287-291): the binary32 parameter patterns are assigned to the 8-byte
floating members, an exact widening. -/
def reset_params (alpha32 beta32 : Nat) (s : ScorerState) : ScorerState :=
  { s with alpha := f32_to_f64 alpha32, beta := f32_to_f64 beta32 }

/-- `Scorer::save_dictionary` (scorer.cpp lines 149-167): writes magic,
version, mode flag, the two 8-byte hyperparameters, then the FST bytes. -/
def save_dictionary (s : ScorerState) : List Nat :=
  le_bytes 4 (bits_of_int32 MAGIC) ++ le_bytes 4 (bits_of_int32 FILE_VERSION) ++
    [if s.is_utf8_mode then 1 else 0] ++ le_bytes 8 s.alpha ++ le_bytes 8 s.beta ++
    s.dictionary

/-- The distinct `std::cerr` diagnostics emitted by `Scorer::load_trie`
(scorer.cpp lines 113-131). -/
inductive Diagnostic where
  | invalidHeader : Diagnostic
  | versionTooOld (version : Int) : Diagnostic
  | versionTooNew (version : Int) : Diagnostic
deriving DecidableEq

/-- Outcome of `Scorer::load_trie` / `Scorer::load_lm`: the numeric return
code, the diagnostic printed to stderr (if any), and the Scorer state
populated on success. -/
structure LoadResult where
  code : Int
  diag : Option Diagnostic
  state : Option ScorerState
deriving DecidableEq

/-- `Scorer::load_trie` (scorer.cpp lines 109-147), reading the byte
stream positioned at the trie offset: 4-byte magic (mismatch → return 1
with the invalid-header diagnostic), 4-byte version (mismatch → return 1,
"too old" diagnostic when the file's version is lower than expected,
"too new" otherwise), the mode flag byte, the two 8-byte hyperparameters
passed to `reset_params` (whose parameters are `float`, so the doubles
read from the file are narrowed at the call), and the remaining bytes
handed to the memory-mapped FST reader. -/
def load_trie (bs : List Nat) : LoadResult :=
  let magic := int32_of_bits (le_decode (bs.take 4))
  if magic ≠ MAGIC then
    { code := 1, diag := some .invalidHeader, state := none }
  else
    let bs1 := bs.drop 4
    let version := int32_of_bits (le_decode (bs1.take 4))
    if version ≠ FILE_VERSION then
      { code := 1
        diag := some (if version < FILE_VERSION then .versionTooOld version
                      else .versionTooNew version)
        state := none }
    else
      let bs2 := bs1.drop 4
      let is_utf8_mode := decide (bs2.headD 0 ≠ 0)
      let bs3 := bs2.drop 1
      let alphaBits := le_decode (bs3.take 8)
      let bs4 := bs3.drop 8
      let betaBits := le_decode (bs4.take 8)
      let bs5 := bs4.drop 8
      let st : ScorerState :=
        { alpha := 0, beta := 0, is_utf8_mode := is_utf8_mode, dictionary := bs5 }
      { code := 0, diag := none
        state := some (reset_params (f64_to_f32 alphaBits) (f64_to_f32 betaBits) st) }

/-- The externally observable facts about an LM package file consulted by
`Scorer::load_lm`: readability (`access`), whether KenLM's
`RecognizeBinary` accepts it, the file size, the end-of-search offset the
loaded model reports, and the raw file bytes. -/
structure LmFile where
  readable : Bool
  recognized : Bool
  size : Nat
  trie_offset : Nat
  bytes : List Nat

/-- `Scorer::load_lm` (scorer.cpp lines 72-107): unreadable file → return
1; unrecognized LM binary format → return 1; file ending at or before the
LM section's end offset → return 1; otherwise seek to the offset and
continue in `load_trie`. -/
def load_lm (f : LmFile) : LoadResult :=
  if ¬ f.readable then { code := 1, diag := none, state := none }
  else if ¬ f.recognized then { code := 1, diag := none, state := none }
  else if f.size ≤ f.trie_offset then { code := 1, diag := none, state := none }
  else load_trie (f.bytes.drop f.trie_offset)

theorem toy_check : get_log_cond_prob toyLM (-6) 1 ["cat", "dog"] true true = -4 := by
  norm_num [get_log_cond_prob, score_loop, toyLM, toyScore,
    show ("dog" : String) ≠ "cat" from by decide]

/-- C1 (counterexample): on the toy bigram engine, `get_log_cond_prob(
["cat","dog"], bos=true, eos=true)` does not equal the sum of the two
successive `base_score` calls threaded through the begin-of-sentence state
plus the end-of-sentence score step: the word loop overwrites `cond_prob`
(`cond_prob = BaseScore(...)`) instead of accumulating, so the toy run
returns -4 (the EOS step's score alone) while the claimed sum is -7. -/
theorem c1_counterexample :
    get_log_cond_prob toyLM (-6) 1 ["cat", "dog"] true true ≠ toyClaimedSum := by
  norm_num [get_log_cond_prob, score_loop, toyLM, toyScore, toyClaimedSum,
    show ("dog" : String) ≠ "cat" from by decide]

/-- C1 (amended): for a two-word call with `bos = eos = true` where both
words are in the LM vocabulary, `get_log_cond_prob` threads the engine
state through the two successive `base_score` calls starting from the
begin-of-sentence state, but the returned value is only the last obtained
score — the end-of-sentence step's score computed in the state reached
after both words — divided by the log-base constant; the per-word scores
are not accumulated into the return value. -/
theorem c1_last_score_only {σ : Type} (lm : NGramLM σ) (oovScore numFltLoge : ℚ)
    (w1 w2 : String) (h1 : lm.index w1 ≠ lm.unk) (h2 : lm.index w2 ≠ lm.unk) :
    get_log_cond_prob lm oovScore numFltLoge [w1, w2] true true =
      (lm.baseScore (lm.baseScore (lm.baseScore lm.beginState (lm.index w1)).2
        (lm.index w2)).2 lm.endSentenceId).1 / numFltLoge := by
  simp [get_log_cond_prob, score_loop, h1, h2]

/-- C1 (witness): the amended statement instantiated on the toy bigram
engine and the scenario's vocabulary `{"cat","dog"}`. -/
theorem c1_witness :
    toyLM.index "cat" ≠ toyLM.unk ∧ toyLM.index "dog" ≠ toyLM.unk ∧
      get_log_cond_prob toyLM (-6) 1 ["cat", "dog"] true true =
        (toyLM.baseScore (toyLM.baseScore (toyLM.baseScore toyLM.beginState
          (toyLM.index "cat")).2 (toyLM.index "dog")).2 toyLM.endSentenceId).1 / 1 :=
  ⟨by decide, by decide,
    c1_last_score_only toyLM (-6) 1 "cat" "dog" (by decide) (by decide)⟩

/-- C2: in UTF-8 mode, a node labelled with the root sentinel yields no
boundary; otherwise, with `b` the leading byte of the current partial
codepoint and `d` the reported distance to the codepoint boundary, the
expected byte count is 4 when `b`'s top 5 bits are `11110`, 3 when its top
4 bits are `1110`, 2 when its top 3 bits are `110`, 1 when its top bit is
`0`, and the function returns `true` exactly when `d` equals that
count. -/
theorem c2_utf8_boundary (space_id : Nat) (character : Int) (b : Nat)
    (d : Int) (new_label : Nat) :
    is_scoring_boundary true space_id (-1) b d new_label = some false ∧
    (b >>> 3 = 0x1E → utf8_needed_bytes b = some 4) ∧
    (b >>> 4 = 0x0E → utf8_needed_bytes b = some 3) ∧
    (b >>> 5 = 0x06 → utf8_needed_bytes b = some 2) ∧
    (b >>> 7 = 0 → utf8_needed_bytes b = some 1) ∧
    (character ≠ -1 → ∀ n : Nat, utf8_needed_bytes b = some n →
      (is_scoring_boundary true space_id character b d new_label = some true ↔
        d = (n : Int))) := by
  refine ⟨by simp [is_scoring_boundary], ?_, ?_, ?_, ?_, ?_⟩
  · intro h
    simp [utf8_needed_bytes, h]
  · intro h
    have h3 : ¬ b >>> 3 = 0x1E := by
      simp only [Nat.shiftRight_eq_div_pow] at h ⊢; omega
    simp [utf8_needed_bytes, h, h3]
  · intro h
    have h3 : ¬ b >>> 3 = 0x1E := by
      simp only [Nat.shiftRight_eq_div_pow] at h ⊢; omega
    have h4 : ¬ b >>> 4 = 0x0E := by
      simp only [Nat.shiftRight_eq_div_pow] at h ⊢; omega
    simp [utf8_needed_bytes, h, h3, h4]
  · intro h
    have h3 : ¬ b >>> 3 = 0x1E := by
      simp only [Nat.shiftRight_eq_div_pow] at h ⊢; omega
    have h4 : ¬ b >>> 4 = 0x0E := by
      simp only [Nat.shiftRight_eq_div_pow] at h ⊢; omega
    have h5 : ¬ b >>> 5 = 0x06 := by
      simp only [Nat.shiftRight_eq_div_pow] at h ⊢; omega
    simp [utf8_needed_bytes, h, h3, h4, h5]
  · intro hc n hn
    simp [is_scoring_boundary, hc, hn]

/-- C2 (witness): leading byte `0xE2` (top 4 bits `1110`) on a non-root
node: the expected count is 3 and the boundary fires exactly at distance
3. -/
theorem c2_witness :
    is_scoring_boundary true 0 (-1) 0xE2 3 7 = some false ∧
    ((0xE2 : Nat) >>> 3 = 0x1E → utf8_needed_bytes 0xE2 = some 4) ∧
    ((0xE2 : Nat) >>> 4 = 0x0E → utf8_needed_bytes 0xE2 = some 3) ∧
    ((0xE2 : Nat) >>> 5 = 0x06 → utf8_needed_bytes 0xE2 = some 2) ∧
    ((0xE2 : Nat) >>> 7 = 0 → utf8_needed_bytes 0xE2 = some 1) ∧
    ((5 : Int) ≠ -1 → ∀ n : Nat, utf8_needed_bytes 0xE2 = some n →
      (is_scoring_boundary true 0 5 0xE2 3 7 = some true ↔ (3 : Int) = (n : Int))) :=
  c2_utf8_boundary 0 5 0xE2 3 7

/-- C3: in UTF-8 mode, when the leading byte of the current partial
codepoint matches none of the four legal leading-byte classes (and the
node is not the root sentinel), `is_scoring_boundary` hits the
`assert(false)` branch, modelled as `none`: the function aborts rather
than silently continuing with a boundary decision, so it never returns
`some` value on such input. -/
theorem c3_invalid_leading_byte_fatal (space_id : Nat) (character : Int)
    (first_byte : Nat) (distance : Int) (new_label : Nat)
    (hc : character ≠ -1) (hb : utf8_needed_bytes first_byte = none) :
    is_scoring_boundary true space_id character first_byte distance new_label = none := by
  simp [is_scoring_boundary, hc, hb]

/-- C3 (witness): leading byte `0xFF` matches no legal class, so boundary
detection on a non-root node is fatal. -/
theorem c3_witness :
    (5 : Int) ≠ -1 ∧ utf8_needed_bytes 0xFF = none ∧
      is_scoring_boundary true 0 5 0xFF 1 7 = none :=
  ⟨by decide, by decide,
    c3_invalid_leading_byte_fatal 0 5 0xFF 1 7 (by decide) (by decide)⟩

/-- The word loop short-circuits with `none` as soon as it reaches a word
whose vocabulary index is the unknown id, regardless of what precedes or
follows it. -/
theorem score_loop_oov {σ : Type} (lm : NGramLM σ) (w : String)
    (hw : lm.index w = lm.unk) :
    ∀ (pre post : List String) (st : σ) (cp : ℚ),
      score_loop lm (pre ++ w :: post) st cp = none := by
  intro pre
  induction pre with
  | nil => intro post st cp; simp [score_loop, hw]
  | cons u rest ih =>
    intro post st cp
    by_cases hu : lm.index u = lm.unk
    · simp [score_loop, hu]
    · simp [score_loop, hu, ih]

/-- C5: if any unit passed to `get_log_cond_prob` is out of the LM
vocabulary (its index equals the unknown id), the function returns the
fixed out-of-vocabulary penalty constant — short-circuiting at the first
such unit: the result is `OOV_SCORE` for every choice of the remaining
units, not a probability derived from them, and it is an ordinary return
value of the total function, not an error. -/
theorem c5_oov_short_circuit {σ : Type} (lm : NGramLM σ) (oovScore numFltLoge : ℚ)
    (w : String) (hw : lm.index w = lm.unk) (pre post : List String) (bos eos : Bool) :
    get_log_cond_prob lm oovScore numFltLoge (pre ++ w :: post) bos eos = oovScore := by
  simp only [get_log_cond_prob, score_loop_oov lm w hw]

/-- C5 (witness): "zebra" is out of the toy engine's vocabulary, so
scoring `["cat", "zebra"]` returns the penalty constant -6. -/
theorem c5_witness :
    toyLM.index "zebra" = toyLM.unk ∧
      get_log_cond_prob toyLM (-6) 1 (["cat"] ++ "zebra" :: []) true true = -6 :=
  ⟨by decide, c5_oov_short_circuit toyLM (-6) 1 "zebra" (by decide) ["cat"] [] true true⟩

/-- C6: `get_sent_log_prob` on the empty word sequence is a defined value:
the window loop performs exactly one iteration — the lone end-of-sentence
window over an empty word range, with `bos = true` as long as
`max_order > 1` — and the result is that single window's score divided by
the conversion constant, with no division by zero or out-of-bounds
access (the model is a total function). -/
theorem c6_empty_sentence {σ : Type} (lm : NGramLM σ) (oovScore numFltLoge : ℚ)
    (h : 1 < lm.max_order) :
    get_sent_log_prob lm oovScore numFltLoge [] =
      get_log_cond_prob lm oovScore numFltLoge [] true true / numFltLoge := by
  have hb : decide (1 < lm.max_order) = true := decide_eq_true h
  have hm : lm.max_order ≠ 1 := by omega
  simp [get_sent_log_prob, sent_loop, hb, hm]

/-- Writing a run of values never changes the tensor's element count. -/
theorem write_run_length (vals : List ℚ) :
    ∀ (l : List ℚ) (i : Nat), (write_run l i vals).length = l.length := by
  induction vals with
  | nil => intro l i; rfl
  | cons v vs ih => intro l i; simp [write_run, ih]

/-- A run of writes starting inside the list replaces the corresponding
segment. -/
theorem write_run_eq_append (vals : List ℚ) :
    ∀ (l : List ℚ) (i : Nat), i + vals.length ≤ l.length →
      write_run l i vals = l.take i ++ vals ++ l.drop (i + vals.length) := by
  induction vals with
  | nil =>
    intro l i h
    simp [write_run, List.take_append_drop]
  | cons v vs ih =>
    intro l i h
    simp only [List.length_cons] at h
    have hi : i < l.length := by omega
    rw [write_run, ih (l.set i v) (i + 1) (by simp; omega)]
    rw [List.set_eq_take_cons_drop v hi]
    have hlen : (l.take i).length = i := by simp; omega
    rw [List.take_append_eq_append_take, List.drop_append_eq_append_drop]
    rw [List.take_take, hlen]
    have h1 : min (i + 1) i = i := by omega
    have h2 : i + 1 - i = 1 := by omega
    have h3 : i + 1 + vs.length - i = vs.length + 1 := by omega
    have h4 : (l.take i).drop (i + 1 + vs.length) = [] :=
      List.drop_eq_nil_of_le (by omega)
    rw [h1, h2, h3, h4]
    simp [List.drop_drop]
    congr 1
    omega

/-- `le_bytes n v` always yields exactly `n` bytes. -/
theorem le_bytes_length : ∀ (n v : Nat), (le_bytes n v).length = n := by
  intro n
  induction n with
  | zero => intro v; rfl
  | succ n ih => intro v; simp [le_bytes, ih]

/-- Reading back `n` little-endian bytes recovers the value modulo
`256 ^ n`. -/
theorem le_decode_le_bytes : ∀ (n v : Nat), le_decode (le_bytes n v) = v % 256 ^ n := by
  intro n
  induction n with
  | zero => intro v; simp [le_bytes, le_decode, Nat.mod_one]
  | succ n ih =>
    intro v
    rw [le_bytes, le_decode, ih, pow_succ', Nat.mod_mul]

/-- The two's-complement pattern of an in-range 32-bit integer reads back
as the same integer. -/
theorem int32_roundtrip (v : Int) (hlo : -(2 : Int) ^ 31 ≤ v) (hhi : v < 2 ^ 31) :
    int32_of_bits (bits_of_int32 v) = v := by
  unfold int32_of_bits bits_of_int32
  norm_num
  split <;> omega

/-- C7 (counterexample): saving a Scorer whose `alpha` holds the binary64
pattern of 0.1 (`0x3FB999999999999A`) and loading the artifact back does
not reproduce the same `alpha` bits: `load_trie` reads the 8-byte value
but passes it to `reset_params(float, float)`, whose binary32 narrowing
turns it into `0x3FB99999A0000000`. -/
theorem c7_counterexample :
    (load_trie (save_dictionary
        { alpha := 0x3FB999999999999A, beta := 0, is_utf8_mode := false,
          dictionary := [] })).state.map ScorerState.alpha ≠
      some 0x3FB999999999999A := by
  decide

/-- C7 (amended): `save_dictionary` followed by `load_trie` on the
produced bytes succeeds and reproduces bit-identical `utf8_mode` and
dictionary bytes, while `alpha` and `beta` come back equal to the saved
patterns passed through one double→float→double rounding (because
`reset_params` takes `float` parameters); in particular they are
bit-identical exactly when the saved values are representable in
binary32. -/
theorem c7_roundtrip (s : ScorerState) (ha : s.alpha < 2 ^ 64) (hb : s.beta < 2 ^ 64) :
    load_trie (save_dictionary s) =
      { code := 0, diag := none
        state := some { alpha := f32_to_f64 (f64_to_f32 s.alpha)
                        beta := f32_to_f64 (f64_to_f32 s.beta)
                        is_utf8_mode := s.is_utf8_mode
                        dictionary := s.dictionary } } := by
  have h4 : (le_bytes 4 (bits_of_int32 MAGIC)).length = 4 := le_bytes_length 4 _
  have h4' : (le_bytes 4 (bits_of_int32 FILE_VERSION)).length = 4 := le_bytes_length 4 _
  have h8a : (le_bytes 8 s.alpha).length = 8 := le_bytes_length 8 _
  have h8b : (le_bytes 8 s.beta).length = 8 := le_bytes_length 8 _
  have hmagic : int32_of_bits (le_decode (le_bytes 4 (bits_of_int32 MAGIC))) = MAGIC := by
    decide
  have hver :
      int32_of_bits (le_decode (le_bytes 4 (bits_of_int32 FILE_VERSION))) = FILE_VERSION := by
    decide
  have ha' : le_decode (le_bytes 8 s.alpha) = s.alpha := by
    rw [le_decode_le_bytes]
    exact Nat.mod_eq_of_lt (by norm_num; omega)
  have hb' : le_decode (le_bytes 8 s.beta) = s.beta := by
    rw [le_decode_le_bytes]
    exact Nat.mod_eq_of_lt (by norm_num; omega)
  simp only [save_dictionary, load_trie, List.append_assoc, List.singleton_append,
    List.cons_append,
    List.take_left' h4, List.drop_left' h4, List.take_left' h4', List.drop_left' h4',
    hmagic, hver]
  simp only [ne_eq, not_true_eq_false, if_false, ite_false]
  simp only [List.headD_cons, List.drop_one, List.tail_cons, List.nil_append,
    List.take_left' h8a, List.drop_left' h8a, List.take_left' h8b, List.drop_left' h8b,
    ha', hb', reset_params]
  cases hu : s.is_utf8_mode <;> simp [hu]

/-- C7 (witness): 0.5 (`0x3FE0000000000000`) and 3.0
(`0x4008000000000000`) are binary32-representable, so a Scorer holding
them round-trips to a bit-identical state. -/
theorem c7_witness :
    (0x3FB999999999999A : Nat) < 2 ^ 64 ∧
    (0x3FE0000000000000 : Nat) < 2 ^ 64 ∧ (0x4008000000000000 : Nat) < 2 ^ 64 ∧
      load_trie (save_dictionary
          { alpha := 0x3FE0000000000000, beta := 0x4008000000000000,
            is_utf8_mode := true, dictionary := [7, 7] }) =
        { code := 0, diag := none
          state := some { alpha := 0x3FE0000000000000, beta := 0x4008000000000000,
                          is_utf8_mode := true, dictionary := [7, 7] } } :=
  ⟨by decide, by decide, by decide,
    (c7_roundtrip
        { alpha := 0x3FE0000000000000, beta := 0x4008000000000000,
          is_utf8_mode := true, dictionary := [7, 7] }
        (by decide) (by decide)).trans (by decide)⟩

/-- C8: loading an artifact whose header carries any version other than
the supported one fails with return value 1 and no state, emitting the
"too old" diagnostic exactly when the file's version is lower than the
supported one and the "too new" diagnostic otherwise — in particular a
version-5 file against the expected version 6 fails with "too old". -/
theorem c8_version_exact_match (v : Int) (rest : List Nat)
    (hlo : -(2 : Int) ^ 31 ≤ v) (hhi : v < 2 ^ 31) (hne : v ≠ FILE_VERSION) :
    load_trie (le_bytes 4 (bits_of_int32 MAGIC) ++ le_bytes 4 (bits_of_int32 v) ++ rest) =
      { code := 1
        diag := some (if v < FILE_VERSION then Diagnostic.versionTooOld v
                      else Diagnostic.versionTooNew v)
        state := none } := by
  have h4 : (le_bytes 4 (bits_of_int32 MAGIC)).length = 4 := le_bytes_length 4 _
  have h4' : (le_bytes 4 (bits_of_int32 v)).length = 4 := le_bytes_length 4 _
  have hmagic : int32_of_bits (le_decode (le_bytes 4 (bits_of_int32 MAGIC))) = MAGIC := by
    decide
  have hv : int32_of_bits (le_decode (le_bytes 4 (bits_of_int32 v))) = v := by
    rw [le_decode_le_bytes]
    rw [Nat.mod_eq_of_lt (by unfold bits_of_int32; norm_num; omega)]
    exact int32_roundtrip v hlo hhi
  simp only [load_trie, List.append_assoc,
    List.take_left' h4, List.drop_left' h4, List.take_left' h4',
    hmagic, hv]
  simp [hne]

/-- C8 (witness): a file with version 5 against the expected version 6
fails with the "too old" diagnostic, not "too new". -/
theorem c8_witness :
    -(2 : Int) ^ 31 ≤ 5 ∧ (5 : Int) < 2 ^ 31 ∧ (5 : Int) ≠ FILE_VERSION ∧
      load_trie (le_bytes 4 (bits_of_int32 MAGIC) ++ le_bytes 4 (bits_of_int32 5) ++ []) =
        { code := 1, diag := some (Diagnostic.versionTooOld 5), state := none } :=
  ⟨by norm_num, by norm_num, by decide,
    (c8_version_exact_match 5 [] (by norm_num) (by norm_num) (by decide)).trans
      (by decide)⟩

/-- C9 (counterexample): two different failure categories — an unreadable
LM file and an artifact with a bad magic header — both return the same
numeric value 1 from load, so the categories do not map to distinct error
values. -/
theorem c9_counterexample :
    (load_lm { readable := false, recognized := false, size := 0, trie_offset := 0,
               bytes := [] }).code = 1 ∧
    (load_trie [0, 0, 0, 0]).code = 1 ∧
    (load_trie [0, 0, 0, 0]).diag = some Diagnostic.invalidHeader ∧
    (load_lm { readable := false, recognized := false, size := 0, trie_offset := 0,
               bytes := [] }).code = (load_trie [0, 0, 0, 0]).code := by
  decide

/-- C9 (amended): each of the five recoverable load-failure categories —
unreadable file, unrecognized LM format, truncated artifact, bad magic,
version mismatch — is detected during load and returned to the caller as
the same nonzero numeric result 1 with no usable state; the return value
does not distinguish the categories, only the stderr diagnostics of the
last two do. -/
theorem c9_uniform_error_value :
    (∀ f : LmFile, f.readable = false →
      load_lm f = { code := 1, diag := none, state := none }) ∧
    (∀ f : LmFile, f.readable = true → f.recognized = false →
      load_lm f = { code := 1, diag := none, state := none }) ∧
    (∀ f : LmFile, f.readable = true → f.recognized = true → f.size ≤ f.trie_offset →
      load_lm f = { code := 1, diag := none, state := none }) ∧
    (∀ bs : List Nat, int32_of_bits (le_decode (bs.take 4)) ≠ MAGIC →
      load_trie bs = { code := 1, diag := some Diagnostic.invalidHeader, state := none }) ∧
    (∀ bs : List Nat, int32_of_bits (le_decode (bs.take 4)) = MAGIC →
      int32_of_bits (le_decode ((bs.drop 4).take 4)) ≠ FILE_VERSION →
      (load_trie bs).code = 1 ∧ (load_trie bs).state = none) := by
  refine ⟨?_, ?_, ?_, ?_, ?_⟩
  · intro f h
    simp [load_lm, h]
  · intro f h1 h2
    simp [load_lm, h1, h2]
  · intro f h1 h2 h3
    simp [load_lm, h1, h2, Nat.not_lt.mpr h3]
  · intro bs h
    simp [load_trie, h]
  · intro bs h1 h2
    simp [load_trie, h1, h2]

/-- C9 (witness): the amended statement instantiated on an unreadable file
and on a bad-magic byte stream. -/
theorem c9_witness :
    load_lm { readable := false, recognized := true, size := 1, trie_offset := 0,
              bytes := [] } = { code := 1, diag := none, state := none } ∧
    load_trie [9, 9, 9, 9] =
      { code := 1, diag := some Diagnostic.invalidHeader, state := none } :=
  ⟨c9_uniform_error_value.1 _ rfl, c9_uniform_error_value.2.2.2.1 _ (by decide)⟩

/-- `get_prev_word` collects only non-sentinel labels from the node's
backward chain, and the continuation point of the walk (the stop node's
parent) still lies on the chain: its label list is a suffix of the
original one. -/
theorem get_prev_word_spec (space_id : Int) :
    ∀ t : PathTrie,
      (∀ l ∈ (get_prev_word space_id t).1, l ∈ t.pathLabels ∧ l ≠ -1) ∧
      (get_prev_word space_id t).2.parentOf.pathLabels <:+ t.pathLabels := by
  intro t
  induction t with
  | null => simp [get_prev_word, PathTrie.parentOf, PathTrie.pathLabels]
  | node c p ih =>
    by_cases hstop : c = space_id ∨ c = -1
    · simp only [get_prev_word, if_pos hstop]
      exact ⟨by simp, by simp [PathTrie.parentOf, PathTrie.pathLabels,
        List.suffix_cons]⟩
    · push_neg at hstop
      simp only [get_prev_word, if_neg (by tauto : ¬ (c = space_id ∨ c = -1))]
      constructor
      · intro l hl
        rcases List.mem_append.mp hl with hl | hl
        · exact ⟨List.mem_cons_of_mem c (ih.1 l hl).1, (ih.1 l hl).2⟩
        · simp at hl
          subst hl
          exact ⟨List.mem_cons_self l p.pathLabels, hstop.2⟩
      · exact ih.2.trans (List.suffix_cons c p.pathLabels)

/-- `get_prev_grapheme` collects only non-sentinel labels from the node's
backward chain, and the continuation point of the walk still lies on the
chain. -/
theorem get_prev_grapheme_spec :
    ∀ t : PathTrie,
      (∀ l ∈ (get_prev_grapheme t).1, l ∈ t.pathLabels ∧ l ≠ -1) ∧
      (get_prev_grapheme t).2.parentOf.pathLabels <:+ t.pathLabels := by
  intro t
  induction t with
  | null => simp [get_prev_grapheme, PathTrie.parentOf, PathTrie.pathLabels]
  | node c p ih =>
    by_cases hc : c = -1
    · simp only [get_prev_grapheme, if_pos hc]
      exact ⟨by simp, by simp [PathTrie.parentOf, PathTrie.pathLabels,
        List.suffix_cons]⟩
    · by_cases hbd : byte_is_codepoint_boundary c
      · simp only [get_prev_grapheme, if_neg hc, if_pos hbd]
        constructor
        · intro l hl
          simp at hl
          subst hl
          exact ⟨List.mem_cons_self l p.pathLabels, hc⟩
        · simp [PathTrie.parentOf, PathTrie.pathLabels, List.suffix_cons]
      · simp only [get_prev_grapheme, if_neg hc, if_neg hbd]
        constructor
        · intro l hl
          rcases List.mem_append.mp hl with hl | hl
          · exact ⟨List.mem_cons_of_mem c (ih.1 l hl).1, (ih.1 l hl).2⟩
          · simp at hl
            subst hl
            exact ⟨List.mem_cons_self l p.pathLabels, hc⟩
        · exact ih.2.trans (List.suffix_cons c p.pathLabels)

/-- The `make_ngram` loop: at most `k` units are collected, every
collected label comes from the node's backward chain and is never the root
sentinel, and when fewer than `k` units come back the loop stopped at a
null node or at the root. -/
theorem make_ngram_walk_spec (utf8_mode : Bool) (space_id : Int) :
    ∀ (k : Nat) (t : PathTrie),
      (make_ngram_walk utf8_mode space_id k t).1.length ≤ k ∧
      (∀ v ∈ (make_ngram_walk utf8_mode space_id k t).1, ∀ l ∈ v,
        l ∈ t.pathLabels ∧ l ≠ -1) ∧
      ((make_ngram_walk utf8_mode space_id k t).1.length < k →
        (make_ngram_walk utf8_mode space_id k t).2.isTerminal = true) := by
  intro k
  induction k with
  | zero => intro t; simp [make_ngram_walk]
  | succ k ih =>
    intro t
    match t with
    | .null => simp [make_ngram_walk, PathTrie.isTerminal]
    | .node c p =>
      by_cases hc : c = -1
      · simp [make_ngram_walk, hc, PathTrie.isTerminal]
      · have hw :
            (∀ l ∈ (if utf8_mode then get_prev_grapheme (.node c p)
                    else get_prev_word space_id (.node c p)).1,
              l ∈ (PathTrie.node c p).pathLabels ∧ l ≠ -1) ∧
            (if utf8_mode then get_prev_grapheme (.node c p)
             else get_prev_word space_id (.node c p)).2.parentOf.pathLabels <:+
              (PathTrie.node c p).pathLabels := by
          cases utf8_mode with
          | false => simpa using get_prev_word_spec space_id (.node c p)
          | true => simpa using get_prev_grapheme_spec (.node c p)
        have hrec := ih ((if utf8_mode then get_prev_grapheme (.node c p)
            else get_prev_word space_id (.node c p)).2.parentOf)
        simp only [make_ngram_walk, if_neg hc]
        refine ⟨?_, ?_, ?_⟩
        · simp only [List.length_append, List.length_cons, List.length_nil]
          omega
        · intro v hv l hl
          rcases List.mem_append.mp hv with hv | hv
          · have hm := hrec.2.1 v hv l hl
            exact ⟨hw.2.subset hm.1, hm.2⟩
          · simp only [List.mem_singleton] at hv
            subst hv
            exact hw.1 l hl
        · intro hlen
          simp only [List.length_append, List.length_cons, List.length_nil] at hlen
          exact hrec.2.2 (by omega)

/-- C4: for every trie path, the n-gram extracted by `make_ngram` has at
most `max_order` units; every label of every returned unit lies on the
path's backward chain and none is the root sentinel (the walk never
crosses the trie root, and no synthetic tokens are padded in); and
whenever fewer than `max_order` units are returned the loop stopped early
at a null node or at the root sentinel — the available history was
exhausted. -/
theorem c4_make_ngram_bounds (A : List Int → String) (utf8_mode : Bool)
    (space_id : Int) (max_order : Nat) (t : PathTrie) :
    (make_ngram A utf8_mode space_id max_order t).length ≤ max_order ∧
    (∀ v ∈ make_ngram_vecs utf8_mode space_id max_order t, ∀ l ∈ v,
      l ∈ t.pathLabels ∧ l ≠ -1) ∧
    ((make_ngram A utf8_mode space_id max_order t).length < max_order →
      (make_ngram_walk utf8_mode space_id max_order t).2.isTerminal = true) := by
  have h := make_ngram_walk_spec utf8_mode space_id max_order t
  refine ⟨?_, h.2.1, ?_⟩
  · simpa [make_ngram, make_ngram_vecs] using h.1
  · intro hlen
    exact h.2.2 (by simpa [make_ngram, make_ngram_vecs] using hlen)

/-- C4 (witness): the bound instantiated in word mode (space label 5,
`max_order` 3) on the path `root → 3 → 5 → 1 → 2`. -/
theorem c4_witness :
    (make_ngram (fun _ => "w") false 5 3
        (.node 2 (.node 1 (.node 5 (.node 3 (.node (-1) .null)))))).length ≤ 3 ∧
    (∀ v ∈ make_ngram_vecs false 5 3
        (.node 2 (.node 1 (.node 5 (.node 3 (.node (-1) .null))))), ∀ l ∈ v,
      l ∈ (PathTrie.node 2 (.node 1 (.node 5 (.node 3
        (.node (-1) .null))))).pathLabels ∧ l ≠ -1) ∧
    ((make_ngram (fun _ => "w") false 5 3
        (.node 2 (.node 1 (.node 5 (.node 3 (.node (-1) .null)))))).length < 3 →
      (make_ngram_walk false 5 3
        (.node 2 (.node 1 (.node 5 (.node 3 (.node (-1) .null)))))).2.isTerminal = true) :=
  c4_make_ngram_bounds (fun _ => "w") false 5 3
    (.node 2 (.node 1 (.node 5 (.node 3 (.node (-1) .null)))))

/-- C10: whenever the tensor shape's element count is at least the input
vector's length, `tensor_from_vector` produces the vector's elements in
order in the first positions followed by exactly-zero padding in every
remaining position — independent of the tensor's unspecified initial
contents `ret0`. -/
theorem c10_tensor_zero_pad (vec ret0 : List ℚ) (h : vec.length ≤ ret0.length) :
    tensor_from_vector vec ret0 =
      vec ++ List.replicate (ret0.length - vec.length) 0 := by
  unfold tensor_from_vector
  rw [write_run_eq_append vec ret0 0 (by omega)]
  simp only [List.take_zero, List.nil_append, Nat.zero_add]
  have hlen : (vec ++ ret0.drop vec.length).length = ret0.length := by
    simp; omega
  rw [write_run_eq_append _ _ _ (by rw [hlen, List.length_replicate]; omega)]
  rw [List.length_replicate, List.take_left, List.drop_eq_nil_of_le (by omega)]
  simp

/-- C10 (witness): copying `[1, 2]` into a 4-element tensor yields the two
elements followed by two exact zeros. -/
theorem c10_witness :
    ([(1 : ℚ), 2]).length ≤ ([(9 : ℚ), 9, 9, 9]).length ∧
      tensor_from_vector [(1 : ℚ), 2] [(9 : ℚ), 9, 9, 9] =
        [(1 : ℚ), 2] ++ List.replicate (([(9 : ℚ), 9, 9, 9]).length - ([(1 : ℚ), 2]).length) 0 :=
  ⟨by decide, c10_tensor_zero_pad [(1 : ℚ), 2] [(9 : ℚ), 9, 9, 9] (by decide)⟩

/-- C6 (witness): the toy engine has `max_order = 2 > 1`; the empty
sentence's score is the lone EOS window's contribution. -/
theorem c6_witness :
    1 < toyLM.max_order ∧
      get_sent_log_prob toyLM (-6) 1 [] =
        get_log_cond_prob toyLM (-6) 1 [] true true / 1 :=
  ⟨by decide, c6_empty_sentence toyLM (-6) 1 (by decide)⟩
